import Mathlib

/-!
Verification development for the kiro-gateway request converter, token
manager and billing observability logging.

The request-converter operations (`extract_text_content`,
`merge_adjacent_messages`, `build_kiro_history`, `build_kiro_payload`,
the tool-result extraction and the model-id mapping) live in
`kiro_gateway/converters.py`, which is exercised by
`tests/unit/test_converters.py`; the converter module itself is not part
of the source tree available here, so those operations are modelled from
the design spec (sections 4.1, 8) and pinned by the unit tests.  The
token manager (`kiro_gateway/auth.py`) is likewise modelled from the
spec (sections 4.4, 8) as an interleaving transition system.  The
billing observability builder is embedded directly from
`kiro/billing_observability.py`.
-/

set_option autoImplicit false

namespace KiroGateway

/-- Role of a chat message in an OpenAI-shaped request. -/
inductive Role
  | system
  | user
  | assistant
deriving DecidableEq, Repr

/-- One element of a message's content list.  Modelled from the spec:
section 9 closes the duck-typed content shapes into a tagged union; the
list elements seen by the converter are typed text parts
(`{"type":"text","text":...}`), bare `{"text":...}` dicts, bare strings,
`tool_result` parts and `tool_use` parts. -/
inductive ContentPart
  | textTyped (s : String)
  | textKey (s : String)
  | bare (s : String)
  | toolResult (toolUseId : String) (content : String)
  | toolUse (id : String) (name : String) (input : String)
deriving DecidableEq, Repr

/-- Message content.  Modelled from the spec: section 4.1 step 1 — a
plain string, `None`, a list of parts, or a non-string scalar. -/
inductive Content
  | str (s : String)
  | parts (l : List ContentPart)
  | none
  | scalar (n : Int)
deriving DecidableEq, Repr

/-- One OpenAI-style tool call attached to an assistant message. -/
structure ToolCall where
  id : String
  name : String
  arguments : String
deriving DecidableEq, Repr

/-- A chat message as received by the converter. -/
structure ChatMessage where
  role : Role
  content : Content
  tool_calls : List ToolCall := []
deriving DecidableEq, Repr

/-- An OpenAI-shaped chat completion request (the fields the converter
claims depend on). -/
structure ChatCompletionRequest where
  model : String
  messages : List ChatMessage
  stream : Bool := false
deriving DecidableEq, Repr

/-- Text contributed by one content part: text-like parts contribute
their text, tool parts contribute nothing. -/
def partText : ContentPart → String
  | .textTyped s => s
  | .textKey s => s
  | .bare s => s
  | .toolResult _ _ => ""
  | .toolUse _ _ _ => ""

/-- Concatenation of the textual fragments of a part list, in order. -/
def partsText : List ContentPart → String
  | [] => ""
  | p :: ps => partText p ++ partsText ps

/-- Modelled from the spec: section 4.1 step 1 (`extract_text_content`
in `kiro_gateway/converters.py`, not under the available tree).  A plain
string is returned as is, `None` and the empty list yield `""`, a list
concatenates its textual fragments in order, and a non-string scalar is
stringified. -/
def extract_text_content : Content → String
  | .str s => s
  | .none => ""
  | .parts l => partsText l
  | .scalar n => toString n

/-- Whether a message carries tool content (a `tool_calls` field or
`tool_use` / `tool_result` content parts), which blocks merging. -/
def hasToolContent (m : ChatMessage) : Bool :=
  !m.tool_calls.isEmpty ||
    (match m.content with
     | .parts l =>
       l.any fun p =>
         match p with
         | .toolResult _ _ => true
         | .toolUse _ _ _ => true
         | _ => false
     | _ => false)

/-- Two adjacent messages are merged when they have the same role and
neither carries tool content (spec section 4.1 step 2). -/
def canMerge (a b : ChatMessage) : Bool :=
  a.role == b.role && !hasToolContent a && !hasToolContent b

/-- Join of two extracted texts with a newline separator; an empty
fragment contributes nothing.  Modelled from the spec: section 4.1
step 2 leaves the separator an implementation choice and section 9
suggests a newline. -/
def mergeText (a b : String) : String :=
  if a.isEmpty then b else if b.isEmpty then a else a ++ "\n" ++ b

/-- The single message replacing two merged adjacent messages. -/
def mergeTwo (a b : ChatMessage) : ChatMessage :=
  { role := a.role
    content := .str (mergeText (extract_text_content a.content) (extract_text_content b.content))
    tool_calls := [] }

/-- Modelled from the spec: section 4.1 step 2 (`merge_adjacent_messages`
in `kiro_gateway/converters.py`, not under the available tree).
Consecutive messages with identical role and no tool content collapse
into a single message whose text joins the extracted texts. -/
def merge_adjacent_messages : List ChatMessage → List ChatMessage
  | [] => []
  | m :: rest =>
    match merge_adjacent_messages rest with
    | [] => [m]
    | m' :: rest' =>
      if canMerge m m' then mergeTwo m m' :: rest' else m :: m' :: rest'

/-- One upstream history turn (spec section 3): user-input (carrying the
target model id) or assistant-response. -/
inductive HistoryTurn
  | userInput (content : String) (modelId : String)
  | assistantResponse (content : String)
deriving DecidableEq, Repr

/-- History mapping of one message: `user` and `assistant` messages map
to turns, `system` messages are never emitted (spec section 4.1
step 4). -/
def toHistoryTurn (modelId : String) (m : ChatMessage) : Option HistoryTurn :=
  match m.role with
  | .user => some (.userInput (extract_text_content m.content) modelId)
  | .assistant => some (.assistantResponse (extract_text_content m.content))
  | .system => Option.none

/-- Modelled from the spec: section 4.1 step 4 (`build_kiro_history` in
`kiro_gateway/converters.py`, not under the available tree). -/
def build_kiro_history (messages : List ChatMessage) (modelId : String) : List HistoryTurn :=
  messages.filterMap (toHistoryTurn modelId)

/-- Modelled from the spec: sections 4.1 step 7 and 6 (the static
model-id mapping table owned by the converter).  The only entry attested
by the spec and the unit tests is the sonnet 4.5 pair. -/
def MODEL_MAPPING : List (String × String) :=
  [("claude-sonnet-4-5", "CLAUDE_SONNET_4_5_20250929_V1_0")]

/-- Model-id translation: table hit is replaced, a miss passes through
unchanged (spec section 4.1 step 7). -/
def mapModelId (model : String) : String :=
  match MODEL_MAPPING.lookup model with
  | some v => v
  | Option.none => model

/-- Extracted text of the leading `system` message of a (merged) message
list, or `""` when the list does not start with a system message (spec
section 4.1 step 5). -/
def leadingSystemText : List ChatMessage → String
  | [] => ""
  | m :: _ => if m.role == .system then extract_text_content m.content else ""

/-- The current (newest) user turn of the upstream payload. -/
structure CurrentMessage where
  content : String
  modelId : String
deriving DecidableEq, Repr

/-- The upstream conversation-state payload (spec section 3), restricted
to the fields the claims are about. -/
structure KiroPayload where
  conversationId : String
  history : List HistoryTurn
  currentMessage : CurrentMessage
  profileArn : String
deriving DecidableEq, Repr

/-- The sendable turns of a request: the merged messages with `system`
messages removed (spec section 4.1 steps 2 and 4). -/
def conversationTurns (messages : List ChatMessage) : List ChatMessage :=
  (merge_adjacent_messages messages).filter fun m => !(m.role == .system)

/-- Modelled from the spec: section 4.1 (`build_kiro_payload` in
`kiro_gateway/converters.py`, not under the available tree).  Messages
are merged, `system` messages are dropped from the turn list, the last
turn is promoted to the current message (assistant-last and empty text
become the literal `"Continue"`), leading system text is concatenated in
front of the current content, and the conversion fails with
`"No messages to send"` when no turn remains. -/
def build_kiro_payload (request : ChatCompletionRequest) (conversationId : String)
    (profileArn : String) : Except String KiroPayload :=
  let modelId := mapModelId request.model
  let merged := merge_adjacent_messages request.messages
  let turns := conversationTurns request.messages
  match turns.getLast? with
  | Option.none => .error "No messages to send"
  | some last =>
    let baseText :=
      if last.role == .assistant then "Continue"
      else
        let t := extract_text_content last.content
        if t.isEmpty then "Continue" else t
    let sys := leadingSystemText merged
    let content := if sys.isEmpty then baseText else sys ++ "\n\n" ++ baseText
    .ok
      { conversationId := conversationId
        history := build_kiro_history turns.dropLast modelId
        currentMessage := { content := content, modelId := modelId }
        profileArn := profileArn }

/-- One upstream tool-result record (spec section 4.1 step 3). -/
structure KiroToolResult where
  toolUseId : String
  content : String
  status : String
deriving DecidableEq, Repr

/-- Modelled from the spec: section 4.1 step 3 (`_extract_tool_results`
in `kiro_gateway/converters.py`, not under the available tree).  A
content list is scanned for `tool_result` parts, each mapped to a record
keyed by the originating tool-call id with status fixed to
`"success"`; any other content shape yields the empty list. -/
def extract_tool_results : Content → List KiroToolResult
  | .parts l =>
    l.filterMap fun p =>
      match p with
      | .toolResult tid c => some { toolUseId := tid, content := c, status := "success" }
      | _ => Option.none
  | _ => []

/-- Total variant of the history mapping for `system`-free lists: which
turn a non-system message becomes. -/
def turnOf (modelId : String) (m : ChatMessage) : HistoryTurn :=
  match m.role with
  | .assistant => .assistantResponse (extract_text_content m.content)
  | _ => .userInput (extract_text_content m.content) modelId

/-- Text `a` occurs contiguously inside text `b`. -/
def textWithin (a b : String) : Prop :=
  ∃ pre post, b.data = pre ++ a.data ++ post

/-- A plain-text user message, as built in the unit tests. -/
def uMsg (s : String) : ChatMessage := { role := .user, content := .str s }

/-- A plain-text assistant message, as built in the unit tests. -/
def aMsg (s : String) : ChatMessage := { role := .assistant, content := .str s }

/-- A plain-text system message, as built in the unit tests. -/
def sMsg (s : String) : ChatMessage := { role := .system, content := .str s }

namespace TokenMgr

/-- Modelled from the spec: abstract state of the Token Manager
(`kiro_gateway/auth.py`, not under the available tree) together with a
population of callers, for the single-flight contract of sections 4.4
and 8.  `refreshCalls` counts calls made to the upstream token-refresh
endpoint; `notStarted`, `waiting` and `served` partition the callers. -/
structure TMState where
  valid : Bool
  inFlight : Bool
  refreshCalls : Nat
  notStarted : Nat
  waiting : Nat
  served : Nat
deriving DecidableEq, Repr

/-- Modelled from the spec: interleaved execution of concurrent
`get_valid_token` callers (sections 4.4 and 8, with the refresh
succeeding).  A caller finding a valid token is served at once; a
caller finding the token expired starts the refresh when none is in
flight (the only transition touching the upstream endpoint) or joins
the waiters otherwise; completion of the refresh stores the new token
and serves every waiter with that single refresh's outcome. -/
inductive Step : TMState → TMState → Prop
  | enterValid (inF : Bool) (rc ns w sv : Nat) :
      Step ⟨true, inF, rc, ns + 1, w, sv⟩ ⟨true, inF, rc, ns, w, sv + 1⟩
  | enterRefresh (rc ns w sv : Nat) :
      Step ⟨false, false, rc, ns + 1, w, sv⟩ ⟨false, true, rc + 1, ns, w + 1, sv⟩
  | enterWait (rc ns w sv : Nat) :
      Step ⟨false, true, rc, ns + 1, w, sv⟩ ⟨false, true, rc, ns, w + 1, sv⟩
  | completeRefresh (rc ns w sv : Nat) :
      Step ⟨false, true, rc, ns, w, sv⟩ ⟨true, false, rc, ns, 0, sv + w⟩

/-- Reachability along interleaved steps. -/
def Reaches : TMState → TMState → Prop :=
  Relation.ReflTransGen Step

/-- Initial state of the scenario of spec section 8: the stored token is
expired, no refresh is in flight, and `n` concurrent callers are about
to invoke `get_valid_token`. -/
def init (n : Nat) : TMState :=
  { valid := false, inFlight := false, refreshCalls := 0
    notStarted := n, waiting := 0, served := 0 }

/-- Single-flight invariant: callers are conserved, at most one refresh
call is ever made, and nobody is served before the refresh has been
initiated. -/
def Inv (n : Nat) (s : TMState) : Prop :=
  s.served + s.waiting + s.notStarted = n ∧
    ((s.refreshCalls = 1 ∧ (s.inFlight = true ∨ s.valid = true)) ∨
     (s.refreshCalls = 0 ∧ s.inFlight = false ∧ s.valid = false ∧ s.served = 0))

end TokenMgr

namespace Billing

/-- A dynamically-typed value stored in the auth context or a response
payload dict (embedding of the `Any`-typed dict values the logger
reads). -/
inductive PyVal
  | str (s : String)
  | int (n : Int)
  | bool (b : Bool)
  | none
deriving DecidableEq, Repr

/-- `d.get(k)` on a Python dict: the stored value, or `None` when the
key is absent. -/
def dictGet (d : List (String × PyVal)) (k : String) : PyVal :=
  match d.lookup k with
  | some v => v
  | Option.none => .none

/-- The `request` section of the billing observability payload. -/
structure BillingRequestInfo where
  model : String
  stream : Bool
  message_count : Int
  prompt_tokens : Int
  tool_tokens : Int
deriving DecidableEq, Repr

/-- The `user` section of the billing observability payload. -/
structure BillingUserInfo where
  source : PyVal
  billing_user_id : Option String
  username : Option String
  identity : String
deriving DecidableEq, Repr

/-- The `response` section of the billing observability payload. -/
structure BillingResponseInfo where
  usage : Option (List (String × PyVal))
  cache_hit : PyVal
  cache_write : PyVal
deriving DecidableEq, Repr

/-- The structured billing observability payload. -/
structure BillingLog where
  event : String
  endpoint : String
  status : String
  request : BillingRequestInfo
  user : BillingUserInfo
  response : BillingResponseInfo
deriving DecidableEq, Repr

/-- Python `s.strip()`: the string with leading and trailing whitespace
removed. -/
def pyStrip (s : String) : String :=
  ⟨((s.data.dropWhile Char.isWhitespace).reverse.dropWhile Char.isWhitespace).reverse⟩

/-- Python falsiness of `s.strip()`: every character of `s` is
whitespace (equivalently, the stripped string is empty). -/
def isBlank (s : String) : Bool :=
  s.data.all Char.isWhitespace

/-- The username kept by `_build_billing_observability_log`
(src/kiro/billing_observability.py, lines 80-82): the auth-context
`username` value when it is a string that is non-blank after stripping,
kept unstripped; `None` otherwise. -/
def authUsername (auth_context : List (String × PyVal)) : Option String :=
  match dictGet auth_context "username" with
  | .str s => if isBlank s then Option.none else some s
  | _ => Option.none

/-- Python `a or b or "anonymous"` fallback for the identity field,
applied after the username has been ruled out: `billing_user_id` when
truthy, else the literal `"anonymous"`. -/
def fallbackIdentity : Option String → String
  | some b => if b.isEmpty then "anonymous" else b
  | Option.none => "anonymous"

/-- Embedding of `_build_billing_observability_log` from
src/kiro/billing_observability.py (lines 49-108). -/
def build_billing_observability_log (endpoint : String) (model : String) (stream : Bool)
    (auth_context : List (String × PyVal)) (billing_user_id : Option String)
    (prompt_tokens : Int) (tool_tokens : Int) (message_count : Int)
    (usage_payload : Option (List (String × PyVal)))
    (cache_fields : List (String × PyVal)) (status : String) : BillingLog :=
  let username := authUsername auth_context
  { event := "billing_model_observability"
    endpoint := endpoint
    status := status
    request :=
      { model := model, stream := stream, message_count := message_count
        prompt_tokens := prompt_tokens, tool_tokens := tool_tokens }
    user :=
      { source := dictGet auth_context "source"
        billing_user_id := billing_user_id
        username := username
        identity :=
          match username with
          | some s => s
          | Option.none => fallbackIdentity billing_user_id }
    response :=
      { usage := usage_payload
        cache_hit := dictGet cache_fields "cache_hit"
        cache_write := dictGet cache_fields "cache_write" } }

end Billing

/-! ### Lemmas about text extraction -/

theorem partsText_append (l₁ l₂ : List ContentPart) :
    partsText (l₁ ++ l₂) = partsText l₁ ++ partsText l₂ := by
  induction l₁ with
  | nil => rfl
  | cons p ps ih => simp [partsText, ih, String.append_assoc]

theorem textWithin_refl (a : String) : textWithin a a :=
  ⟨[], [], by simp⟩

theorem textWithin_empty (b : String) : textWithin "" b :=
  ⟨[], b.data, rfl⟩

theorem textWithin_trans {a b c : String} (h₁ : textWithin a b) (h₂ : textWithin b c) :
    textWithin a c := by
  obtain ⟨p, q, hb⟩ := h₁
  obtain ⟨p', q', hc⟩ := h₂
  exact ⟨p' ++ p, q ++ q', by simp [hc, hb]⟩

theorem textWithin_mergeText_left (a b : String) : textWithin a (mergeText a b) := by
  rw [mergeText]
  by_cases ha : a.isEmpty
  · rw [if_pos ha]
    obtain rfl := (String.isEmpty_iff a).mp ha
    exact textWithin_empty b
  · by_cases hb : b.isEmpty
    · rw [if_neg ha, if_pos hb]
      exact textWithin_refl a
    · rw [if_neg ha, if_neg hb]
      exact ⟨[], ("\n" ++ b).data, by simp [String.data_append]⟩

theorem textWithin_mergeText_right (a b : String) : textWithin b (mergeText a b) := by
  rw [mergeText]
  by_cases ha : a.isEmpty
  · rw [if_pos ha]
    exact textWithin_refl b
  · by_cases hb : b.isEmpty
    · rw [if_neg ha, if_pos hb]
      obtain rfl := (String.isEmpty_iff b).mp hb
      exact textWithin_empty a
    · rw [if_neg ha, if_neg hb]
      exact ⟨(a ++ "\n").data, [], by simp [String.data_append]⟩

/-! ### Lemmas about adjacent-message merging -/

theorem merge_cons_eq (m : ChatMessage) (rest : List ChatMessage) :
    merge_adjacent_messages (m :: rest) =
      match merge_adjacent_messages rest with
      | [] => [m]
      | m' :: rest' =>
        if canMerge m m' then mergeTwo m m' :: rest' else m :: m' :: rest' := rfl

theorem merge_cons_nil (m : ChatMessage) {rest : List ChatMessage}
    (h : merge_adjacent_messages rest = []) :
    merge_adjacent_messages (m :: rest) = [m] := by
  rw [merge_cons_eq, h]

theorem merge_cons_cons (m : ChatMessage) {rest : List ChatMessage} {m' : ChatMessage}
    {rest' : List ChatMessage} (h : merge_adjacent_messages rest = m' :: rest') :
    merge_adjacent_messages (m :: rest) =
      if canMerge m m' then mergeTwo m m' :: rest' else m :: m' :: rest' := by
  rw [merge_cons_eq, h]

theorem canMerge_true_iff {a b : ChatMessage} :
    canMerge a b = true ↔
      a.role = b.role ∧ hasToolContent a = false ∧ hasToolContent b = false := by
  simp [canMerge, Bool.and_eq_true, beq_iff_eq, and_assoc]

theorem hasToolContent_mergeTwo (a b : ChatMessage) : hasToolContent (mergeTwo a b) = false :=
  rfl

theorem mergeTwo_role (a b : ChatMessage) : (mergeTwo a b).role = a.role :=
  rfl

theorem extract_mergeTwo (a b : ChatMessage) :
    extract_text_content (mergeTwo a b).content =
      mergeText (extract_text_content a.content) (extract_text_content b.content) :=
  rfl

theorem merge_eq_nil_iff (ms : List ChatMessage) :
    merge_adjacent_messages ms = [] ↔ ms = [] := by
  constructor
  · intro h
    cases ms with
    | nil => rfl
    | cons m rest =>
      rw [merge_cons_eq] at h
      rcases hr : merge_adjacent_messages rest with _ | ⟨m', rest'⟩
      · rw [hr] at h
        simp at h
      · rw [hr] at h
        by_cases hc : canMerge m m'
        · simp [hc] at h
        · simp [hc] at h
  · intro h
    subst h
    rfl

theorem exists_mem_merge {ms : List ChatMessage} {m : ChatMessage} (hm : m ∈ ms) :
    ∃ m' ∈ merge_adjacent_messages ms, m.role = m'.role ∧
      textWithin (extract_text_content m.content) (extract_text_content m'.content) := by
  induction ms with
  | nil => cases hm
  | cons a rest ih =>
    rcases hr : merge_adjacent_messages rest with _ | ⟨b, rest'⟩
    · obtain rfl := (merge_eq_nil_iff rest).mp hr
      have hma : m = a := by simpa using hm
      refine ⟨a, by rw [merge_cons_nil a hr]; simp, by rw [hma], ?_⟩
      rw [hma]
      exact textWithin_refl _
    · by_cases hc : canMerge a b
      · have hres : merge_adjacent_messages (a :: rest) = mergeTwo a b :: rest' := by
          rw [merge_cons_cons a hr, if_pos hc]
        rcases List.mem_cons.mp hm with hma | hmr
        · refine ⟨mergeTwo a b, by simp [hres], ?_, ?_⟩
          · rw [hma, mergeTwo_role]
          · rw [hma, extract_mergeTwo]
            exact textWithin_mergeText_left _ _
        · obtain ⟨m', hm', hrole, hwithin⟩ := ih hmr
          rw [hr] at hm'
          rcases List.mem_cons.mp hm' with hmb | hm'r
          · refine ⟨mergeTwo a b, by simp [hres], ?_, ?_⟩
            · rw [mergeTwo_role, hrole, hmb, ← (canMerge_true_iff.mp hc).1]
            · rw [hmb] at hwithin
              rw [extract_mergeTwo]
              exact textWithin_trans hwithin (textWithin_mergeText_right _ _)
          · exact ⟨m', by simp [hres, hm'r], hrole, hwithin⟩
      · have hres : merge_adjacent_messages (a :: rest) = a :: b :: rest' := by
          rw [merge_cons_cons a hr, if_neg hc]
        rcases List.mem_cons.mp hm with hma | hmr
        · refine ⟨a, by simp [hres], by rw [hma], ?_⟩
          rw [hma]
          exact textWithin_refl _
        · obtain ⟨m', hm', hrole, hwithin⟩ := ih hmr
          rw [hr] at hm'
          exact ⟨m', by rw [hres]; exact List.mem_cons_of_mem a hm', hrole, hwithin⟩

theorem mem_merge_src {ms : List ChatMessage} {m' : ChatMessage}
    (hm : m' ∈ merge_adjacent_messages ms) : ∃ m ∈ ms, m'.role = m.role := by
  induction ms with
  | nil => simp [merge_adjacent_messages] at hm
  | cons a rest ih =>
    rcases hr : merge_adjacent_messages rest with _ | ⟨b, rest'⟩
    · rw [merge_cons_nil a hr] at hm
      have hma : m' = a := by simpa using hm
      exact ⟨a, by simp, by rw [hma]⟩
    · by_cases hc : canMerge a b
      · rw [merge_cons_cons a hr, if_pos hc] at hm
        rcases List.mem_cons.mp hm with hmb | hmr
        · exact ⟨a, by simp, by rw [hmb, mergeTwo_role]⟩
        · obtain ⟨m, hmem, hrole⟩ := ih (by rw [hr]; exact List.mem_cons_of_mem b hmr)
          exact ⟨m, List.mem_cons_of_mem a hmem, hrole⟩
      · rw [merge_cons_cons a hr, if_neg hc] at hm
        rcases List.mem_cons.mp hm with hma | hmr
        · exact ⟨a, by simp, by rw [hma]⟩
        · obtain ⟨m, hmem, hrole⟩ := ih (by rw [hr]; exact hmr)
          exact ⟨m, List.mem_cons_of_mem a hmem, hrole⟩

theorem canMerge_mergeTwo_false {a b y : ChatMessage} (hc : canMerge a b = true)
    (hby : canMerge b y = false) : canMerge (mergeTwo a b) y = false := by
  obtain ⟨hrole, _, htb⟩ := canMerge_true_iff.mp hc
  by_cases hry : b.role = y.role
  · have hty : hasToolContent y = true := by
      by_contra hny
      rw [canMerge_true_iff.mpr ⟨hry, htb, Bool.not_eq_true _ ▸ hny⟩] at hby
      cases hby
    simp [canMerge, hty]
  · simp [canMerge, mergeTwo_role, hrole, hry]

theorem chain'_merge (ms : List ChatMessage) :
    List.Chain' (fun x y => canMerge x y = false) (merge_adjacent_messages ms) := by
  induction ms with
  | nil => simp [merge_adjacent_messages]
  | cons a rest ih =>
    rcases hr : merge_adjacent_messages rest with _ | ⟨b, rest'⟩
    · rw [merge_cons_nil a hr]
      simp
    · rw [hr] at ih
      by_cases hc : canMerge a b
      · rw [merge_cons_cons a hr, if_pos hc]
        obtain ⟨hhead, htail⟩ := List.chain'_cons'.mp ih
        refine List.chain'_cons'.mpr ⟨fun y hy => ?_, htail⟩
        exact canMerge_mergeTwo_false hc (hhead y hy)
      · rw [merge_cons_cons a hr, if_neg hc]
        refine List.chain'_cons'.mpr ⟨fun y hy => ?_, ih⟩
        simp at hy
        subst hy
        exact Bool.not_eq_true _ ▸ hc

theorem merge_of_chain' {ms : List ChatMessage}
    (h : List.Chain' (fun x y => canMerge x y = false) ms) :
    merge_adjacent_messages ms = ms := by
  induction ms with
  | nil => rfl
  | cons a rest ih =>
    obtain ⟨hhead, htail⟩ := List.chain'_cons'.mp h
    have hrest := ih htail
    cases rest with
    | nil => rfl
    | cons b rest'' =>
      have hcab : canMerge a b = false := hhead b (by simp)
      rw [merge_cons_cons a hrest, if_neg (by simp [hcab])]

/-! ### Claim theorems: the text-extraction and merging claims -/

/-- C4: `extract_text_content` is total over the closed union of content
shapes: a plain string is returned unchanged, `None` and the empty list
yield the empty string, a non-string scalar is stringified, and the
textual fragments of a part list are concatenated in input order (the
append homomorphism). -/
theorem claim_C4_extract_text_total :
    (∀ s, extract_text_content (.str s) = s)
    ∧ extract_text_content .none = ""
    ∧ extract_text_content (.parts []) = ""
    ∧ (∀ n : Int, extract_text_content (.scalar n) = toString n)
    ∧ (∀ l₁ l₂, extract_text_content (.parts (l₁ ++ l₂)) =
        extract_text_content (.parts l₁) ++ extract_text_content (.parts l₂)) :=
  ⟨fun _ => rfl, rfl, rfl, fun _ => rfl, fun l₁ l₂ => partsText_append l₁ l₂⟩

/-- C5: merging keeps every original message's extracted text as a
substring of some output message of the same role, returns an
alternating-role sequence unchanged (merging never crosses a role
boundary), and leaves no mergeable adjacent pair (identical role, no
tool content) in its output. -/
theorem claim_C5_merge_preserves_texts (ms : List ChatMessage) :
    (∀ m ∈ ms, ∃ m' ∈ merge_adjacent_messages ms, m.role = m'.role ∧
        textWithin (extract_text_content m.content) (extract_text_content m'.content))
    ∧ (List.Chain' (fun x y => x.role ≠ y.role) ms → merge_adjacent_messages ms = ms)
    ∧ List.Chain' (fun x y => canMerge x y = false) (merge_adjacent_messages ms) := by
  refine ⟨fun m hm => exists_mem_merge hm, fun h => merge_of_chain' (h.imp ?_), chain'_merge ms⟩
  intro x y hxy
  simp [canMerge, hxy]

/-- Witness for C5 at the unit-test inputs: merging two adjacent user
messages keeps `"Hello"` recoverable, and an alternating conversation is
returned unchanged. -/
theorem claim_C5_witness :
    (∃ m' ∈ merge_adjacent_messages [uMsg "Hello", uMsg "World"],
        (uMsg "Hello").role = m'.role ∧
        textWithin (extract_text_content (uMsg "Hello").content)
          (extract_text_content m'.content))
    ∧ merge_adjacent_messages [uMsg "Hello", aMsg "Hi", uMsg "How are you?"]
        = [uMsg "Hello", aMsg "Hi", uMsg "How are you?"] :=
  ⟨(claim_C5_merge_preserves_texts _).1 (uMsg "Hello") (by simp),
   (claim_C5_merge_preserves_texts _).2.1 (by simp [List.chain'_cons, uMsg, aMsg])⟩

/-- C6: adjacent-message merging is idempotent. -/
theorem claim_C6_merge_idempotent (ms : List ChatMessage) :
    merge_adjacent_messages (merge_adjacent_messages ms) = merge_adjacent_messages ms :=
  merge_of_chain' (chain'_merge ms)

/-! ### Lemmas about history construction and the payload -/

theorem build_kiro_history_filter_system (ms : List ChatMessage) (mid : String) :
    build_kiro_history ms mid
      = build_kiro_history (ms.filter fun m => !(m.role == .system)) mid := by
  induction ms with
  | nil => rfl
  | cons m rest ih =>
    simp only [build_kiro_history, List.filter_cons] at ih ⊢
    cases hr : m.role with
    | system => simp [List.filterMap_cons, toHistoryTurn, hr, ih]
    | user => simp [List.filterMap_cons, toHistoryTurn, hr, ih]
    | assistant => simp [List.filterMap_cons, toHistoryTurn, hr, ih]

theorem build_kiro_history_eq_map {ms : List ChatMessage} (mid : String)
    (h : ∀ m ∈ ms, m.role ≠ .system) :
    build_kiro_history ms mid = ms.map (turnOf mid) := by
  induction ms with
  | nil => rfl
  | cons m rest ih =>
    have hm := h m (by simp)
    have hrest := ih fun x hx => h x (by simp [hx])
    simp only [build_kiro_history] at hrest ⊢
    cases hr : m.role with
    | system => exact absurd hr hm
    | user => simp [List.filterMap_cons, toHistoryTurn, turnOf, hr, hrest]
    | assistant => simp [List.filterMap_cons, toHistoryTurn, turnOf, hr, hrest]

theorem mem_turns_not_system {msgs : List ChatMessage} {m : ChatMessage}
    (h : m ∈ conversationTurns msgs) : m.role ≠ .system := by
  rw [conversationTurns] at h
  have := (List.mem_filter.mp h).2
  simpa using this

/-! ### Claim theorems: payload-level claims -/

/-- C1: conversion fails with the `ValidationError` message
`"No messages to send"` exactly when the request contains no non-system
message, and succeeds (returns a payload) whenever at least one
non-system message is present. -/
theorem claim_C1_validation_error (request : ChatCompletionRequest) (cid arn : String) :
    ((∀ m ∈ request.messages, m.role = .system) →
        build_kiro_payload request cid arn = .error "No messages to send")
    ∧ ((∃ m ∈ request.messages, m.role ≠ .system) →
        ∃ p, build_kiro_payload request cid arn = .ok p) := by
  constructor
  · intro hall
    have hturns : conversationTurns request.messages = [] := by
      rw [conversationTurns]
      refine List.filter_eq_nil_iff.mpr fun m' hm' => ?_
      obtain ⟨m, hm, hrole⟩ := mem_merge_src hm'
      simp [hrole, hall m hm]
    simp only [build_kiro_payload]
    rw [hturns]
    rfl
  · rintro ⟨m, hm, hrole⟩
    obtain ⟨m', hm', hrole', _⟩ := exists_mem_merge hm
    have hmem : m' ∈ conversationTurns request.messages := by
      rw [conversationTurns]
      refine List.mem_filter.mpr ⟨hm', ?_⟩
      simp [← hrole', hrole]
    have hne : conversationTurns request.messages ≠ [] := fun hnil => by
      rw [hnil] at hmem
      cases hmem
    obtain ⟨last, hlast⟩ := Option.isSome_iff_exists.mp (List.getLast?_isSome.mpr hne)
    simp only [build_kiro_payload]
    rw [hlast]
    exact ⟨_, rfl⟩

/-- Witness for C1 at the unit-test inputs: a system-only request fails
with `"No messages to send"`, a one-user-message request succeeds. -/
theorem claim_C1_witness :
    build_kiro_payload
        { model := "claude-sonnet-4-5", messages := [sMsg "You are helpful"] } "conv-123" ""
      = .error "No messages to send"
    ∧ ∃ p, build_kiro_payload
        { model := "claude-sonnet-4-5", messages := [uMsg "Hello"] } "conv-123" "arn:aws:test"
      = .ok p :=
  ⟨(claim_C1_validation_error _ "conv-123" "").1 (by simp [sMsg]),
   (claim_C1_validation_error _ "conv-123" "arn:aws:test").2 ⟨uMsg "Hello", by simp, by simp [uMsg]⟩⟩

/-- C2 (amended): when the merged request has no leading system text and
its last non-system turn is an assistant message or extracts to the
empty string, the current message content is exactly `"Continue"`. -/
theorem claim_C2_continue_substitution (request : ChatCompletionRequest) (cid arn : String)
    (last : ChatMessage)
    (hsys : leadingSystemText (merge_adjacent_messages request.messages) = "")
    (hlast : (conversationTurns request.messages).getLast? = some last)
    (hcond : last.role = .assistant ∨ extract_text_content last.content = "") :
    (build_kiro_payload request cid arn).map (fun p => p.currentMessage.content)
      = .ok "Continue" := by
  simp only [build_kiro_payload]
  rw [hlast, hsys]
  have hemp : ("" : String).isEmpty = true := rfl
  rcases hcond with hrole | htext
  · simp [hrole, hemp, Except.map]
  · by_cases hrole : last.role == .assistant
    · simp [hrole, hemp, Except.map]
    · simp [hrole, htext, hemp, Except.map]

/-- Counterexample to C2 as stated: with a system message present the
assistant-last current content is the system text concatenated in front
of `"Continue"`, not the literal `"Continue"`. -/
theorem claim_C2_counterexample :
    (build_kiro_payload
        { model := "claude-sonnet-4-5",
          messages := [sMsg "You are helpful", uMsg "Hi", aMsg "Hello"] }
        "conv-123" "").map (fun p => p.currentMessage.content)
      = .ok "You are helpful\n\nContinue"
    ∧ ("You are helpful\n\nContinue" : String) ≠ "Continue" :=
  ⟨rfl, by decide⟩

/-- Witness for C2 at the unit-test inputs: assistant-last and
empty-user-content requests both produce current content
`"Continue"`. -/
theorem claim_C2_witness :
    (build_kiro_payload
        { model := "claude-sonnet-4-5", messages := [uMsg "Hello", aMsg "Hi there"] }
        "conv-123" "").map (fun p => p.currentMessage.content) = .ok "Continue"
    ∧ (build_kiro_payload
        { model := "claude-sonnet-4-5", messages := [uMsg ""] }
        "conv-123" "").map (fun p => p.currentMessage.content) = .ok "Continue" :=
  ⟨claim_C2_continue_substitution _ "conv-123" "" (aMsg "Hi there") rfl rfl (Or.inl rfl),
   claim_C2_continue_substitution _ "conv-123" "" (uMsg "") rfl rfl (Or.inr rfl)⟩

/-- C3: a successful conversion's history is exactly the image of all
turns but the last (which is promoted to the current message), so its
length is `max (turns - 1) 0`; and history construction never emits
`system` messages (it is blind to them). -/
theorem claim_C3_history_shape (request : ChatCompletionRequest) (cid arn : String)
    (p : KiroPayload) (h : build_kiro_payload request cid arn = .ok p) :
    p.history.length = max ((conversationTurns request.messages).length - 1) 0
    ∧ p.history
        = ((conversationTurns request.messages).dropLast).map (turnOf (mapModelId request.model))
    ∧ (∀ ms mid, build_kiro_history ms mid
        = build_kiro_history (ms.filter fun m => !(m.role == .system)) mid) := by
  have hmap : build_kiro_history ((conversationTurns request.messages).dropLast)
      (mapModelId request.model)
      = ((conversationTurns request.messages).dropLast).map (turnOf (mapModelId request.model)) :=
    build_kiro_history_eq_map _ fun m hm =>
      mem_turns_not_system (List.dropLast_subset _ hm)
  simp only [build_kiro_payload] at h
  rcases hlast : (conversationTurns request.messages).getLast? with _ | last
  · rw [hlast] at h
    cases h
  · rw [hlast] at h
    simp only [Except.ok.injEq] at h
    subst h
    have hne : conversationTurns request.messages ≠ [] := by
      intro hnil
      rw [hnil] at hlast
      cases hlast
    refine ⟨?_, hmap, fun ms mid => build_kiro_history_filter_system ms mid⟩
    rw [show (KiroPayload.history _) = build_kiro_history
        ((conversationTurns request.messages).dropLast) (mapModelId request.model) from rfl]
    rw [hmap, List.length_map, List.length_dropLast]
    omega

/-- Witness for C3 at the unit-test multi-turn input: three turns yield
a two-entry history of exactly the first two turns. -/
theorem claim_C3_witness :
    ({ conversationId := "conv-123",
       history := [HistoryTurn.userInput "Hello" "CLAUDE_SONNET_4_5_20250929_V1_0",
                   HistoryTurn.assistantResponse "Hi"],
       currentMessage := { content := "How are you?",
                           modelId := "CLAUDE_SONNET_4_5_20250929_V1_0" },
       profileArn := "" } : KiroPayload).history.length
      = max ((conversationTurns
          [uMsg "Hello", aMsg "Hi", uMsg "How are you?"]).length - 1) 0 :=
  (claim_C3_history_shape
    { model := "claude-sonnet-4-5",
      messages := [uMsg "Hello", aMsg "Hi", uMsg "How are you?"] }
    "conv-123" "" _ rfl).1

/-- C7: the external model id is translated through the static mapping
table (`claude-sonnet-4-5` maps to the sonnet 4.5 internal enumeration),
ids absent from the table pass through unchanged without failing, and a
successful payload carries exactly the translated id. -/
theorem claim_C7_model_mapping :
    mapModelId "claude-sonnet-4-5" = "CLAUDE_SONNET_4_5_20250929_V1_0"
    ∧ (∀ m, MODEL_MAPPING.lookup m = Option.none → mapModelId m = m)
    ∧ (∀ request cid arn p, build_kiro_payload request cid arn = .ok p →
        p.currentMessage.modelId = mapModelId request.model) := by
  refine ⟨rfl, fun m hm => by rw [mapModelId, hm], fun request cid arn p h => ?_⟩
  simp only [build_kiro_payload] at h
  rcases hlast : (conversationTurns request.messages).getLast? with _ | last
  · rw [hlast] at h
    cases h
  · rw [hlast] at h
    simp only [Except.ok.injEq] at h
    subst h
    rfl

/-- Witness for C7: an id absent from the table passes through, and the
unit-test request's payload carries the mapped sonnet 4.5 id. -/
theorem claim_C7_witness :
    mapModelId "unknown-model-id" = "unknown-model-id"
    ∧ ({ conversationId := "c", history := [],
         currentMessage := { content := "Hello", modelId := "unknown-model-id" },
         profileArn := "" } : KiroPayload).currentMessage.modelId
        = mapModelId "unknown-model-id" :=
  ⟨claim_C7_model_mapping.2.1 "unknown-model-id" rfl,
   claim_C7_model_mapping.2.2 { model := "unknown-model-id", messages := [uMsg "Hello"] }
     "c" "" _ rfl⟩

/-- C8: tool-result extraction maps exactly the `tool_result` parts of a
content list to upstream records keyed by the originating tool-call id
with status fixed to `"success"`, and yields the empty list for plain
strings and for lists without `tool_result` parts. -/
theorem claim_C8_tool_results :
    (∀ s, extract_tool_results (.str s) = [])
    ∧ extract_tool_results Content.none = []
    ∧ (∀ l, (∀ tid c, ContentPart.toolResult tid c ∉ l) →
        extract_tool_results (.parts l) = [])
    ∧ (∀ l r, r ∈ extract_tool_results (.parts l) →
        r.status = "success" ∧ ContentPart.toolResult r.toolUseId r.content ∈ l)
    ∧ (∀ l tid c, ContentPart.toolResult tid c ∈ l →
        ({ toolUseId := tid, content := c, status := "success" } : KiroToolResult)
          ∈ extract_tool_results (.parts l)) := by
  refine ⟨fun _ => rfl, rfl, fun l hl => ?_, fun l r hr => ?_, fun l tid c hc => ?_⟩
  · simp only [extract_tool_results]
    refine List.filterMap_eq_nil_iff.mpr fun p hp => ?_
    cases p with
    | toolResult tid c => exact absurd hp (hl tid c)
    | textTyped s => rfl
    | textKey s => rfl
    | bare s => rfl
    | toolUse i n j => rfl
  · simp only [extract_tool_results, List.mem_filterMap] at hr
    obtain ⟨p, hp, hpr⟩ := hr
    cases p with
    | toolResult tid c =>
      simp only [Option.some.injEq] at hpr
      subst hpr
      exact ⟨rfl, hp⟩
    | textTyped s => cases hpr
    | textKey s => cases hpr
    | bare s => cases hpr
    | toolUse i n j => cases hpr
  · simp only [extract_tool_results, List.mem_filterMap]
    exact ⟨ContentPart.toolResult tid c, hc, rfl⟩

/-- Witness for C8 at the unit-test inputs: the `call_123` tool result
is extracted with status `"success"`, and a text-only list yields no
tool results. -/
theorem claim_C8_witness :
    ({ toolUseId := "call_123", content := "Result text", status := "success" } : KiroToolResult)
      ∈ extract_tool_results (.parts [.toolResult "call_123" "Result text"])
    ∧ extract_tool_results (.parts [.textTyped "Hello"]) = [] :=
  ⟨claim_C8_tool_results.2.2.2.2 _ "call_123" "Result text" (by simp),
   claim_C8_tool_results.2.2.1 _ (by simp)⟩

/-! ### Token manager: single-flight refresh -/

namespace TokenMgr

theorem inv_init (n : Nat) : Inv n (init n) := by
  refine ⟨by simp [init], Or.inr ?_⟩
  simp [init]

theorem inv_step {n : Nat} {s s' : TMState} (hi : Inv n s) (hs : Step s s') : Inv n s' := by
  obtain ⟨hsum, hd⟩ := hi
  cases hs with
  | enterValid inF rc ns w sv =>
    simp only [Inv] at *
    refine ⟨by omega, ?_⟩
    rcases hd with ⟨h1, h2⟩ | ⟨h1, h2, h3, h4⟩
    · exact Or.inl ⟨h1, Or.inr trivial⟩
    · cases h3
  | enterRefresh rc ns w sv =>
    simp only [Inv] at *
    refine ⟨by omega, ?_⟩
    rcases hd with ⟨h1, h2 | h2⟩ | ⟨h1, h2, h3, h4⟩
    · cases h2
    · cases h2
    · exact Or.inl ⟨by omega, Or.inl trivial⟩
  | enterWait rc ns w sv =>
    simp only [Inv] at *
    refine ⟨by omega, ?_⟩
    rcases hd with ⟨h1, h2⟩ | ⟨h1, h2, h3, h4⟩
    · exact Or.inl ⟨h1, Or.inl trivial⟩
    · cases h2
  | completeRefresh rc ns w sv =>
    simp only [Inv] at *
    refine ⟨by omega, ?_⟩
    rcases hd with ⟨h1, h2⟩ | ⟨h1, h2, h3, h4⟩
    · exact Or.inl ⟨h1, Or.inr trivial⟩
    · cases h2

theorem inv_reaches {n : Nat} {s : TMState} (h : Reaches (init n) s) : Inv n s := by
  unfold Reaches at h
  induction h with
  | refl => exact inv_init n
  | tail _ hstep ih => exact inv_step ih hstep

/-- C9 (spec-modelled): in every interleaving of any number of
concurrent `get_valid_token` callers starting from an expired token, at
the point where every caller has finished, exactly one refresh call has
been made to the upstream endpoint and every caller has observed its
outcome. -/
theorem claim_C9_single_flight (n : Nat) (s : TMState) (h : Reaches (init n) s)
    (hns : s.notStarted = 0) (hw : s.waiting = 0) (hn : 0 < n) :
    s.refreshCalls = 1 ∧ s.served = n := by
  obtain ⟨hsum, hd⟩ := inv_reaches h
  rcases hd with ⟨h1, _⟩ | ⟨_, _, _, h4⟩
  · exact ⟨h1, by omega⟩
  · exfalso
    omega

/-- Witness for C9: a concrete two-caller interleaving — one caller
starts the refresh, the second joins as a waiter, the refresh completes
serving both — makes exactly one refresh call. -/
theorem claim_C9_witness :
    (⟨true, false, 1, 0, 0, 2⟩ : TMState).refreshCalls = 1
    ∧ (⟨true, false, 1, 0, 0, 2⟩ : TMState).served = 2 :=
  claim_C9_single_flight 2 ⟨true, false, 1, 0, 0, 2⟩
    (Relation.ReflTransGen.tail
      (Relation.ReflTransGen.tail
        (Relation.ReflTransGen.tail Relation.ReflTransGen.refl
          (Step.enterRefresh 0 1 0 0))
        (Step.enterWait 1 0 1 0))
      (Step.completeRefresh 1 0 2 0))
    rfl rfl (by omega)

end TokenMgr

/-! ### Billing observability -/

namespace Billing

/-- C10 (amended): the identity field is the auth-context username kept
verbatim (not stripped) when that username is a string non-empty after
stripping; otherwise the username field is `None` and the identity falls
back to a truthy `billing_user_id`, else the literal `"anonymous"`. -/
theorem claim_C10_identity_fallback (endpoint model : String) (stream : Bool)
    (ctx : List (String × PyVal)) (buid : Option String) (pt tt mc : Int)
    (up : Option (List (String × PyVal))) (cf : List (String × PyVal)) (status : String) :
    (∀ s, dictGet ctx "username" = .str s → isBlank s = false →
        (build_billing_observability_log endpoint model stream ctx buid
            pt tt mc up cf status).user.identity = s
        ∧ (build_billing_observability_log endpoint model stream ctx buid
            pt tt mc up cf status).user.username = some s)
    ∧ (authUsername ctx = Option.none →
        (build_billing_observability_log endpoint model stream ctx buid
            pt tt mc up cf status).user.username = Option.none
        ∧ (build_billing_observability_log endpoint model stream ctx buid
            pt tt mc up cf status).user.identity = fallbackIdentity buid)
    ∧ (∀ b, buid = some b → b ≠ "" → fallbackIdentity buid = b)
    ∧ fallbackIdentity Option.none = "anonymous"
    ∧ fallbackIdentity (some "") = "anonymous" := by
  refine ⟨fun s hs hb => ?_, fun hn => ?_, fun b hb hne => ?_, rfl, rfl⟩
  · constructor
    · simp [build_billing_observability_log, authUsername, hs, hb]
    · simp [build_billing_observability_log, authUsername, hs, hb]
  · constructor
    · simp [build_billing_observability_log, hn]
    · simp [build_billing_observability_log, hn]
  · subst hb
    have : b.isEmpty = false := by
      cases he : b.isEmpty
      · rfl
      · exact absurd ((String.isEmpty_iff b).mp he) hne
    simp [fallbackIdentity, this]

/-- Counterexample to C10 as stated: the code keeps the username
verbatim, so for the auth-context username `" alice "` the identity is
`" alice "`, not the stripped `"alice"` the claim predicts. -/
theorem claim_C10_counterexample :
    (build_billing_observability_log "/v1/chat/completions" "claude-sonnet-4-5" false
        [("username", PyVal.str " alice ")] (some "user-1") 0 0 1
        Option.none [] "ok").user.identity = " alice "
    ∧ pyStrip " alice " = "alice"
    ∧ isBlank " alice " = false
    ∧ (" alice " : String) ≠ "alice" :=
  ⟨rfl, rfl, rfl, by decide⟩

/-- Witness for C10: a non-blank username becomes the identity verbatim;
with no username the identity falls back to the billing user id. -/
theorem claim_C10_witness :
    (build_billing_observability_log "/v1/chat/completions" "claude-sonnet-4-5" false
        [("username", PyVal.str "alice")] (some "user-1") 0 0 1
        Option.none [] "ok").user.identity = "alice"
    ∧ (build_billing_observability_log "/v1/chat/completions" "claude-sonnet-4-5" false
        [] (some "bill-7") 0 0 1 Option.none [] "ok").user.identity
        = fallbackIdentity (some "bill-7")
    ∧ fallbackIdentity (some "bill-7") = "bill-7" :=
  ⟨((claim_C10_identity_fallback "/v1/chat/completions" "claude-sonnet-4-5" false
      [("username", PyVal.str "alice")] (some "user-1") 0 0 1
      Option.none [] "ok").1 "alice" rfl rfl).1,
   ((claim_C10_identity_fallback "/v1/chat/completions" "claude-sonnet-4-5" false
      [] (some "bill-7") 0 0 1 Option.none [] "ok").2.1 rfl).2,
   (claim_C10_identity_fallback "/v1/chat/completions" "claude-sonnet-4-5" false
      [] (some "bill-7") 0 0 1 Option.none [] "ok").2.2.1 "bill-7" rfl (by decide)⟩

end Billing

end KiroGateway
